import Mathlib

/-!
Verification of the boot-image validator-and-patcher core (the `blri` tool)
and of the UART transmit-configuration register accessors of this repository.

The `blri` library crate (entry points `blri::check` and `blri::process` and
the error enumeration `blri::Error`) is not among the provided source files;
only its command-line caller (`blri/src/main.rs`) is.  The definitions in the
`Blri` namespace are therefore modelled from the specification (sections 3,
4.2 to 4.6, 6 and 7), with the error-variant names and their diagnostic
fields taken from the match arms visible in `blri/src/main.rs`.  Files are
byte lists, the byte-range reader is positional indexing, and the
cryptographic digest (the external `sha2` crate) and the sub-record
redundancy checksum (an external checksum crate) are parameters of `check`;
the concrete stand-ins `mHash` and `mChk` below instantiate them for
concrete runs.

The `Uart` namespace embeds `TransmitConfig` from `src/uart.rs` directly.
-/

set_option maxRecDepth 100000

namespace Blri

/-- Modelled from the spec: the fixed header size of the boot image
(section 4.2, and the 256-byte header of the concrete scenario in
section 8); the `blri` library defining it is not under the provided
sources. -/
def HEADER_SIZE : Nat := 256

/-- Modelled from the spec: byte offset of the top-level magic signature
(section 3, "the fixed-offset record at the start of the image"). -/
def MAGIC_OFFSET : Nat := 0

/-- Modelled from the spec: byte offset of the flash-configuration
sub-record; the sub-record spans the bytes before its redundancy field. -/
def FLASH_CONFIG_OFFSET : Nat := 8

/-- Modelled from the spec: byte offset of the flash-configuration
redundancy field (a 4-byte checksum over the sub-record's own bytes,
excluding the checksum field itself, section 3). -/
def FLASH_CRC_OFFSET : Nat := 100

/-- Modelled from the spec: byte offset of the clock-configuration
sub-record. -/
def CLOCK_CONFIG_OFFSET : Nat := 104

/-- Modelled from the spec: byte offset of the clock-configuration
redundancy field. -/
def CLOCK_CRC_OFFSET : Nat := 116

/-- Modelled from the spec: byte offset of the `image_offset` header field
(unsigned 32-bit, little-endian, section 3). -/
def IMAGE_OFFSET_OFFSET : Nat := 120

/-- Modelled from the spec: byte offset of the `image_length` header field. -/
def IMAGE_LENGTH_OFFSET : Nat := 124

/-- Modelled from the spec: byte offset of the 32-byte payload digest. -/
def DIGEST_OFFSET : Nat := 128

/-- Modelled from the spec: the expected top-level format signature
(section 4.3 check 1; the concrete value is a model constant). -/
def MAGIC : Nat := 0x504e4642

/-- Modelled from the spec: the expected flash-configuration magic
(section 4.3 check 2; the concrete value is a model constant). -/
def FLASH_MAGIC : Nat := 0x47464346

/-- Modelled from the spec: the expected clock-configuration magic
(section 4.3 check 3; the concrete value is a model constant). -/
def CLOCK_MAGIC : Nat := 0x47464350

/-- A single byte of the candidate image, as the byte-range reader returns
it: positional access, out of range reads yield 0 (never reached on the
paths of `check`, which bounds-checks first), masked to a byte. -/
def byteAt (file : List Nat) (i : Nat) : Nat := file.getD i 0 % 256

/-- Little-endian unsigned 32-bit decode at a byte offset
(265 = 2 to the 8th and so on, written as decimal literals). -/
def readU32 (file : List Nat) (off : Nat) : Nat :=
  byteAt file off + 256 * byteAt file (off + 1) + 65536 * byteAt file (off + 2) +
    16777216 * byteAt file (off + 3)

/-- Modelled from the spec: the byte-range reader's
`read_exact(offset, length)` (section 4.1) over the in-memory image. -/
def readBytes (file : List Nat) (off len : Nat) : List Nat :=
  (List.range len).map fun k => byteAt file (off + k)

/-- Little-endian encoding of an unsigned 32-bit value into 4 bytes. -/
def u32le (v : Nat) : List Nat :=
  [v % 256, v / 256 % 256, v / 65536 % 256, v / 16777216 % 256]

/-- Modelled from the spec: the failure conditions of `blri::check`
(section 7); variant and field names follow the match arms of
`blri/src/main.rs`.  The I/O variant is not modelled: the in-memory
byte-list reader cannot fail. -/
inductive Error where
  | magicNumber (wrongMagic : Nat)
  | headLength (wrongLength : Nat)
  | flashConfigMagic (wrongMagic : Nat)
  | clockConfigMagic (wrongMagic : Nat)
  | imageOffsetOverflow (fileLength wrongImageOffset wrongImageLength : Nat)
  | sha256Checksum (wrongChecksum : List Nat)
deriving DecidableEq

/-- Modelled from the spec: a corrective byte-range write, an absolute byte
offset plus the exact replacement bytes (section 3). -/
structure PatchOp where
  offset : Nat
  bytes : List Nat
deriving DecidableEq

/-- Modelled from the spec: the validate entry point `blri::check`
(sections 4.2 to 4.5 and 6), whose implementation is not under the
provided sources.  `hash` is the cryptographic digest function (32-byte
output) and `chk` the sub-record redundancy checksum (an unsigned 32-bit
value), both external crates in the implementation.  Runs, in order: the
header-length gate, the three magic checks, the image-range arithmetic
check, the payload-digest comparison (the error carries the computed
digest), and finally emits one patch op per sub-record redundancy field
whose stored value differs from the recomputed one (per the concrete
scenario of spec section 8, which returns exactly one op when exactly one
redundancy field is stale). -/
def check (hash : List Nat → List Nat) (chk : List Nat → Nat) (file : List Nat) :
    Except Error (List PatchOp) :=
  if file.length < HEADER_SIZE then
    .error (.headLength file.length)
  else if readU32 file MAGIC_OFFSET ≠ MAGIC then
    .error (.magicNumber (readU32 file MAGIC_OFFSET))
  else if readU32 file FLASH_CONFIG_OFFSET ≠ FLASH_MAGIC then
    .error (.flashConfigMagic (readU32 file FLASH_CONFIG_OFFSET))
  else if readU32 file CLOCK_CONFIG_OFFSET ≠ CLOCK_MAGIC then
    .error (.clockConfigMagic (readU32 file CLOCK_CONFIG_OFFSET))
  else if file.length < readU32 file IMAGE_OFFSET_OFFSET + readU32 file IMAGE_LENGTH_OFFSET then
    .error (.imageOffsetOverflow file.length (readU32 file IMAGE_OFFSET_OFFSET)
      (readU32 file IMAGE_LENGTH_OFFSET))
  else if hash (readBytes file (readU32 file IMAGE_OFFSET_OFFSET)
      (readU32 file IMAGE_LENGTH_OFFSET)) ≠ readBytes file DIGEST_OFFSET 32 then
    .error (.sha256Checksum (hash (readBytes file (readU32 file IMAGE_OFFSET_OFFSET)
      (readU32 file IMAGE_LENGTH_OFFSET))))
  else
    .ok
      ((if chk (readBytes file FLASH_CONFIG_OFFSET (FLASH_CRC_OFFSET - FLASH_CONFIG_OFFSET)) %
            4294967296 ≠ readU32 file FLASH_CRC_OFFSET then
          [⟨FLASH_CRC_OFFSET, u32le (chk (readBytes file FLASH_CONFIG_OFFSET
            (FLASH_CRC_OFFSET - FLASH_CONFIG_OFFSET)) % 4294967296)⟩]
        else []) ++
      (if chk (readBytes file CLOCK_CONFIG_OFFSET (CLOCK_CRC_OFFSET - CLOCK_CONFIG_OFFSET)) %
            4294967296 ≠ readU32 file CLOCK_CRC_OFFSET then
          [⟨CLOCK_CRC_OFFSET, u32le (chk (readBytes file CLOCK_CONFIG_OFFSET
            (CLOCK_CRC_OFFSET - CLOCK_CONFIG_OFFSET)) % 4294967296)⟩]
        else []))

/-- Modelled from the spec: the patch applier's single write, "seeks to
each op's offset and writes exactly its bytes" (section 4.6), on the
in-memory image. -/
def writeAt (file : List Nat) (off : Nat) : List Nat → List Nat
  | [] => file
  | b :: bs => writeAt (file.set off b) (off + 1) bs

/-- Modelled from the spec: the patch entry point `blri::process`
(sections 4.6 and 6), whose implementation is not under the provided
sources: applies the ops to the writable copy, in list order. -/
def process (file : List Nat) (ops : List PatchOp) : List Nat :=
  ops.foldl (fun f op => writeAt f op.offset op.bytes) file

/-- Concrete stand-in for the external 32-byte digest function, used to
instantiate the `hash` parameter on concrete inputs. -/
def mHash (bs : List Nat) : List Nat :=
  (List.range 32).map fun i => (bs.sum + i) % 256

/-- Concrete stand-in for the external sub-record checksum, used to
instantiate the `chk` parameter on concrete inputs. -/
def mChk (bs : List Nat) : Nat := bs.sum

/-- A run of zero bytes. -/
def zeros (n : Nat) : List Nat := List.replicate n 0

/-- Builds a concrete image: a 256-byte header (magics, sub-record bodies
of zeros, the two stored redundancy fields, `image_offset`,
`image_length`, the 32-byte digest, zero padding) followed by the payload
bytes. -/
def mkFile (magic fMagic flashCrc cMagic clockCrc imgOff imgLen : Nat)
    (digest payload : List Nat) : List Nat :=
  u32le magic ++ zeros 4 ++ u32le fMagic ++ zeros 88 ++ u32le flashCrc ++
    u32le cMagic ++ zeros 8 ++ u32le clockCrc ++ u32le imgOff ++ u32le imgLen ++
    digest ++ zeros 96 ++ payload

/-- The concrete scenario of spec section 8: 320-byte file, correct
magics, `image_offset` 256, `image_length` 64, digest matching the
payload, clock redundancy field correct (288 is `mChk` of the clock
sub-record bytes), flash redundancy field 0 which is wrong (the correct
recomputed value is 278). -/
def c8file : List Nat :=
  mkFile MAGIC FLASH_MAGIC 0 CLOCK_MAGIC 288 256 64 (List.range 32) (zeros 64)

/-- Like `c8file` but with both redundancy fields already correct. -/
def consistentFile : List Nat :=
  mkFile MAGIC FLASH_MAGIC 278 CLOCK_MAGIC 288 256 64 (List.range 32) (zeros 64)

/-- Like `c8file` but with a stored digest (all zeros) that does not match
the payload hash. -/
def digestMismatchFile : List Nat :=
  mkFile MAGIC FLASH_MAGIC 278 CLOCK_MAGIC 288 256 64 (zeros 32) (zeros 64)

/-- Like `c8file` but declaring `image_length` 65, so that the declared
image range 256 + 65 exceeds the 320-byte file. -/
def rangeFile : List Nat :=
  mkFile MAGIC FLASH_MAGIC 278 CLOCK_MAGIC 288 256 65 (List.range 32) (zeros 64)

/-- Like `c8file` but with a corrupted flash-configuration magic. -/
def flashBadFile : List Nat :=
  mkFile MAGIC 0xdeadbeef 278 CLOCK_MAGIC 288 256 64 (List.range 32) (zeros 64)

/-- A 256-byte image whose declared payload range [100, 104) lies inside
the header and coincides with the flash-configuration redundancy field,
which is stored as 0 (stale); the stored digest matches the stored payload
bytes, so `check` succeeds and schedules a write inside the declared
payload region. -/
def overlapFile : List Nat :=
  mkFile MAGIC FLASH_MAGIC 0 CLOCK_MAGIC 288 100 4 (List.range 32) []

end Blri

namespace Blri

/-- Every byte the reader returns is below 256. -/
theorem byteAt_lt (file : List Nat) (i : Nat) : byteAt file i < 256 :=
  Nat.mod_lt _ (by norm_num)

/-- A decoded unsigned 32-bit field is below 2 to the 32nd. -/
theorem readU32_lt (file : List Nat) (off : Nat) : readU32 file off < 4294967296 := by
  have h0 := byteAt_lt file off
  have h1 := byteAt_lt file (off + 1)
  have h2 := byteAt_lt file (off + 2)
  have h3 := byteAt_lt file (off + 3)
  unfold readU32
  omega

/-- `u32le` always encodes into exactly 4 bytes. -/
theorem length_u32le (v : Nat) : (u32le v).length = 4 := rfl

/-- Setting an index leaves every other position of the list unchanged. -/
theorem getD_set_of_ne (l : List Nat) (i j v : Nat) (h : i ≠ j) :
    (l.set i v).getD j 0 = l.getD j 0 := by
  induction l generalizing i j with
  | nil => rfl
  | cons a l ih =>
    cases i with
    | zero =>
      cases j with
      | zero => exact absurd rfl h
      | succ j => rfl
    | succ i =>
      cases j with
      | zero => rfl
      | succ j =>
        show (l.set i v).getD j 0 = l.getD j 0
        exact ih i j (by omega)

/-- Setting an in-range index stores the new value at that position. -/
theorem getD_set_self (l : List Nat) (i v : Nat) (h : i < l.length) :
    (l.set i v).getD i 0 = v := by
  induction l generalizing i with
  | nil => simp at h
  | cons a l ih =>
    cases i with
    | zero => rfl
    | succ i =>
      show (l.set i v).getD i 0 = v
      exact ih i (by simpa using h)

/-- A write never changes the length of the image. -/
theorem length_writeAt (bs : List Nat) (file : List Nat) (off : Nat) :
    (writeAt file off bs).length = file.length := by
  induction bs generalizing file off with
  | nil => rfl
  | cons b bs ih => rw [writeAt, ih, List.length_set]

/-- A write leaves every byte outside its target range unchanged. -/
theorem getD_writeAt_outside (bs : List Nat) (file : List Nat) (off i : Nat)
    (h : i < off ∨ off + bs.length ≤ i) :
    (writeAt file off bs).getD i 0 = file.getD i 0 := by
  induction bs generalizing file off with
  | nil => rfl
  | cons b bs ih =>
    rw [writeAt, ih (file.set off b) (off + 1) (by simp at h ⊢; omega),
      getD_set_of_ne file off i b (by simp at h; omega)]

/-- A write stores exactly its bytes at its target range (when the range is
within the image, as it always is for the ops `check` produces). -/
theorem getD_writeAt_inside (bs : List Nat) (file : List Nat) (off k : Nat)
    (hk : k < bs.length) (hin : off + k < file.length) :
    (writeAt file off bs).getD (off + k) 0 = bs.getD k 0 := by
  induction bs generalizing file off k with
  | nil => simp at hk
  | cons b bs ih =>
    cases k with
    | zero =>
      rw [writeAt, getD_writeAt_outside bs (file.set off b) (off + 1) (off + 0)
        (Or.inl (by omega)), Nat.add_zero, List.getD_cons_zero]
      exact getD_set_self file off b (by omega)
    | succ k =>
      rw [writeAt, show off + (k + 1) = (off + 1) + k by omega,
        ih (file.set off b) (off + 1) k (by simpa using hk)
          (by rw [List.length_set]; omega),
        List.getD_cons_succ]

/-- A write leaves every `byteAt` read outside its target range unchanged. -/
theorem byteAt_writeAt_outside (bs : List Nat) (file : List Nat) (off i : Nat)
    (h : i < off ∨ off + bs.length ≤ i) :
    byteAt (writeAt file off bs) i = byteAt file i := by
  unfold byteAt
  rw [getD_writeAt_outside bs file off i h]

/-- A write leaves every 32-bit field decoded from a disjoint range
unchanged. -/
theorem readU32_writeAt_outside (bs : List Nat) (file : List Nat) (woff off : Nat)
    (h : off + 4 ≤ woff ∨ woff + bs.length ≤ off) :
    readU32 (writeAt file woff bs) off = readU32 file off := by
  unfold readU32
  rw [byteAt_writeAt_outside bs file woff off (by omega),
    byteAt_writeAt_outside bs file woff (off + 1) (by omega),
    byteAt_writeAt_outside bs file woff (off + 2) (by omega),
    byteAt_writeAt_outside bs file woff (off + 3) (by omega)]

/-- A write leaves every byte-range read from a disjoint range unchanged. -/
theorem readBytes_writeAt_outside (bs : List Nat) (file : List Nat) (woff off len : Nat)
    (h : off + len ≤ woff ∨ woff + bs.length ≤ off) :
    readBytes (writeAt file woff bs) off len = readBytes file off len := by
  unfold readBytes
  refine List.map_congr_left fun k hk => ?_
  rw [List.mem_range] at hk
  exact byteAt_writeAt_outside bs file woff (off + k) (by omega)

/-- Writing a little-endian 32-bit encoding and decoding it back yields the
value reduced to 32 bits. -/
theorem readU32_writeAt_u32le (file : List Nat) (off v : Nat)
    (h4 : off + 4 ≤ file.length) :
    readU32 (writeAt file off (u32le v)) off = v % 4294967296 := by
  have h0 := getD_writeAt_inside (u32le v) file off 0 (by rw [length_u32le]; omega) (by omega)
  have h1 := getD_writeAt_inside (u32le v) file off 1 (by rw [length_u32le]; omega) (by omega)
  have h2 := getD_writeAt_inside (u32le v) file off 2 (by rw [length_u32le]; omega) (by omega)
  have h3 := getD_writeAt_inside (u32le v) file off 3 (by rw [length_u32le]; omega) (by omega)
  rw [Nat.add_zero] at h0
  unfold readU32 byteAt
  rw [h0, h1, h2, h3]
  show v % 256 % 256 + 256 * (v / 256 % 256 % 256) + 65536 * (v / 65536 % 256 % 256) +
      16777216 * (v / 16777216 % 256 % 256) = v % 4294967296
  omega

/-- Inversion of a successful run of `check`: the header length gate, the
three magics, the range check and the digest comparison all passed, and the
returned ops are exactly the conditional redundancy-field patches. -/
theorem check_ok_elim (hash : List Nat → List Nat) (chk : List Nat → Nat)
    (file : List Nat) (ops : List PatchOp)
    (hok : check hash chk file = .ok ops) :
    HEADER_SIZE ≤ file.length ∧
    readU32 file MAGIC_OFFSET = MAGIC ∧
    readU32 file FLASH_CONFIG_OFFSET = FLASH_MAGIC ∧
    readU32 file CLOCK_CONFIG_OFFSET = CLOCK_MAGIC ∧
    readU32 file IMAGE_OFFSET_OFFSET + readU32 file IMAGE_LENGTH_OFFSET ≤ file.length ∧
    hash (readBytes file (readU32 file IMAGE_OFFSET_OFFSET)
      (readU32 file IMAGE_LENGTH_OFFSET)) = readBytes file DIGEST_OFFSET 32 ∧
    ops =
      (if chk (readBytes file FLASH_CONFIG_OFFSET (FLASH_CRC_OFFSET - FLASH_CONFIG_OFFSET)) %
            4294967296 ≠ readU32 file FLASH_CRC_OFFSET then
          [⟨FLASH_CRC_OFFSET, u32le (chk (readBytes file FLASH_CONFIG_OFFSET
            (FLASH_CRC_OFFSET - FLASH_CONFIG_OFFSET)) % 4294967296)⟩]
        else []) ++
      (if chk (readBytes file CLOCK_CONFIG_OFFSET (CLOCK_CRC_OFFSET - CLOCK_CONFIG_OFFSET)) %
            4294967296 ≠ readU32 file CLOCK_CRC_OFFSET then
          [⟨CLOCK_CRC_OFFSET, u32le (chk (readBytes file CLOCK_CONFIG_OFFSET
            (CLOCK_CRC_OFFSET - CLOCK_CONFIG_OFFSET)) % 4294967296)⟩]
        else []) := by
  unfold check at hok
  by_cases h1 : file.length < HEADER_SIZE
  · rw [if_pos h1] at hok; exact Except.noConfusion hok
  rw [if_neg h1] at hok
  by_cases h2 : readU32 file MAGIC_OFFSET ≠ MAGIC
  · rw [if_pos h2] at hok; exact Except.noConfusion hok
  rw [if_neg h2] at hok
  by_cases h3 : readU32 file FLASH_CONFIG_OFFSET ≠ FLASH_MAGIC
  · rw [if_pos h3] at hok; exact Except.noConfusion hok
  rw [if_neg h3] at hok
  by_cases h4 : readU32 file CLOCK_CONFIG_OFFSET ≠ CLOCK_MAGIC
  · rw [if_pos h4] at hok; exact Except.noConfusion hok
  rw [if_neg h4] at hok
  by_cases h5 : file.length < readU32 file IMAGE_OFFSET_OFFSET + readU32 file IMAGE_LENGTH_OFFSET
  · rw [if_pos h5] at hok; exact Except.noConfusion hok
  rw [if_neg h5] at hok
  by_cases h6 : hash (readBytes file (readU32 file IMAGE_OFFSET_OFFSET)
      (readU32 file IMAGE_LENGTH_OFFSET)) ≠ readBytes file DIGEST_OFFSET 32
  · rw [if_pos h6] at hok; exact Except.noConfusion hok
  rw [if_neg h6] at hok
  refine ⟨by omega, not_not.mp h2, not_not.mp h3, not_not.mp h4, by omega,
    not_not.mp h6, ?_⟩
  injection hok with h
  exact h.symm

/-- Claim C1: for every well-formed header (long enough, all three magics
correct, image range within the file) whose payload bytes hash to a value
different from the stored digest, `check` fails with the payload-digest
mismatch condition, the digest carried in the error is the hash computed
over exactly the byte range from `image_offset` of length `image_length`
(the computed digest, not the stored one), and the run never reaches
patch-op generation (no ops are returned). -/
theorem check_digest_mismatch (hash : List Nat → List Nat) (chk : List Nat → Nat)
    (file : List Nat)
    (hlen : HEADER_SIZE ≤ file.length)
    (hm : readU32 file MAGIC_OFFSET = MAGIC)
    (hf : readU32 file FLASH_CONFIG_OFFSET = FLASH_MAGIC)
    (hc : readU32 file CLOCK_CONFIG_OFFSET = CLOCK_MAGIC)
    (hr : readU32 file IMAGE_OFFSET_OFFSET + readU32 file IMAGE_LENGTH_OFFSET ≤ file.length)
    (hd : hash (readBytes file (readU32 file IMAGE_OFFSET_OFFSET)
      (readU32 file IMAGE_LENGTH_OFFSET)) ≠ readBytes file DIGEST_OFFSET 32) :
    check hash chk file = .error (.sha256Checksum
      (hash (readBytes file (readU32 file IMAGE_OFFSET_OFFSET)
        (readU32 file IMAGE_LENGTH_OFFSET)))) := by
  unfold check
  rw [if_neg (by omega), if_neg (not_not_intro hm), if_neg (not_not_intro hf),
    if_neg (not_not_intro hc), if_neg (by omega), if_pos hd]

/-- Claim C1, witness: on a concrete well-formed 320-byte image whose
stored digest (all zeros) differs from the payload hash, `check` fails
carrying exactly the recomputed digest. -/
theorem check_digest_mismatch_witness :
    check mHash mChk digestMismatchFile = .error (.sha256Checksum
      (mHash (readBytes digestMismatchFile (readU32 digestMismatchFile IMAGE_OFFSET_OFFSET)
        (readU32 digestMismatchFile IMAGE_LENGTH_OFFSET)))) :=
  check_digest_mismatch mHash mChk digestMismatchFile (by decide) (by decide)
    (by decide) (by decide) (by decide) (by decide)

/-- Claim C2: the sum of the two decoded unsigned 32-bit fields
`image_offset` and `image_length` can never overflow 64 bits (it is below
2 to the 33rd), and whenever it exceeds the file's total length on an
otherwise well-formed header, `check` fails with the image-range condition
carrying exactly the file length, the declared offset and the declared
length, without panicking or wrapping. -/
theorem check_image_range (hash : List Nat → List Nat) (chk : List Nat → Nat)
    (file : List Nat)
    (hlen : HEADER_SIZE ≤ file.length)
    (hm : readU32 file MAGIC_OFFSET = MAGIC)
    (hf : readU32 file FLASH_CONFIG_OFFSET = FLASH_MAGIC)
    (hc : readU32 file CLOCK_CONFIG_OFFSET = CLOCK_MAGIC)
    (hover : file.length < readU32 file IMAGE_OFFSET_OFFSET + readU32 file IMAGE_LENGTH_OFFSET) :
    readU32 file IMAGE_OFFSET_OFFSET + readU32 file IMAGE_LENGTH_OFFSET < 18446744073709551616 ∧
    check hash chk file = .error (.imageOffsetOverflow file.length
      (readU32 file IMAGE_OFFSET_OFFSET) (readU32 file IMAGE_LENGTH_OFFSET)) := by
  have ho := readU32_lt file IMAGE_OFFSET_OFFSET
  have hl := readU32_lt file IMAGE_LENGTH_OFFSET
  refine ⟨by omega, ?_⟩
  unfold check
  rw [if_neg (by omega), if_neg (not_not_intro hm), if_neg (not_not_intro hf),
    if_neg (not_not_intro hc), if_pos hover]

/-- Claim C2, witness: a concrete 320-byte image declaring offset 256 and
length 65 fails with the image-range condition carrying 320, 256 and 65. -/
theorem check_image_range_witness :
    readU32 rangeFile IMAGE_OFFSET_OFFSET + readU32 rangeFile IMAGE_LENGTH_OFFSET <
      18446744073709551616 ∧
    check mHash mChk rangeFile = .error (.imageOffsetOverflow rangeFile.length
      (readU32 rangeFile IMAGE_OFFSET_OFFSET) (readU32 rangeFile IMAGE_LENGTH_OFFSET)) :=
  check_image_range mHash mChk rangeFile (by decide) (by decide) (by decide)
    (by decide) (by decide)

/-- Claim C3: for every input strictly shorter than the fixed header size,
`check` fails with the header-too-short condition carrying the exact
number of bytes actually available; the result is determined by the length
alone, before any header field is interpreted. -/
theorem check_head_length (hash : List Nat → List Nat) (chk : List Nat → Nat)
    (file : List Nat) (h : file.length < HEADER_SIZE) :
    check hash chk file = .error (.headLength file.length) := by
  unfold check
  rw [if_pos h]

/-- Claim C3, witness: a 3-byte input fails with the header-too-short
condition carrying 3. -/
theorem check_head_length_witness :
    check mHash mChk [7, 7, 7] = .error (.headLength 3) :=
  check_head_length mHash mChk [7, 7, 7] (by decide)

/-- Claim C4: the structural checks run in the fixed order top-level
magic, flash-config magic, clock-config magic (each before the image-range
arithmetic), short-circuiting on the first failure: a wrong top-level
magic yields the magic-number condition regardless of every later field; a
wrong flash-config magic under a correct top-level magic yields the
flash-config condition; a wrong clock-config magic under correct earlier
magics yields the clock-config condition.  Each error carries the observed
wrong value, and no other condition is returned. -/
theorem check_magic_order (hash : List Nat → List Nat) (chk : List Nat → Nat)
    (file : List Nat) (hlen : HEADER_SIZE ≤ file.length) :
    (readU32 file MAGIC_OFFSET ≠ MAGIC →
      check hash chk file = .error (.magicNumber (readU32 file MAGIC_OFFSET))) ∧
    (readU32 file MAGIC_OFFSET = MAGIC → readU32 file FLASH_CONFIG_OFFSET ≠ FLASH_MAGIC →
      check hash chk file = .error (.flashConfigMagic (readU32 file FLASH_CONFIG_OFFSET))) ∧
    (readU32 file MAGIC_OFFSET = MAGIC → readU32 file FLASH_CONFIG_OFFSET = FLASH_MAGIC →
      readU32 file CLOCK_CONFIG_OFFSET ≠ CLOCK_MAGIC →
      check hash chk file = .error (.clockConfigMagic (readU32 file CLOCK_CONFIG_OFFSET))) := by
  refine ⟨fun h1 => ?_, fun h1 h2 => ?_, fun h1 h2 h3 => ?_⟩
  · unfold check
    rw [if_neg (by omega), if_pos h1]
  · unfold check
    rw [if_neg (by omega), if_neg (not_not_intro h1), if_pos h2]
  · unfold check
    rw [if_neg (by omega), if_neg (not_not_intro h1), if_neg (not_not_intro h2), if_pos h3]

/-- Claim C4, witness: a concrete image whose only corrupted magic is the
flash-config one fails with the flash-config condition carrying the
observed value. -/
theorem check_magic_order_witness :
    check mHash mChk flashBadFile =
      .error (.flashConfigMagic (readU32 flashBadFile FLASH_CONFIG_OFFSET)) :=
  (check_magic_order mHash mChk flashBadFile (by decide)).2.1 (by decide) (by decide)

/-- Claim C7, amended: the patch-op generator emits a `PatchOp` for a
sub-record redundancy field exactly when that field's stored value differs
from its recomputed one.  The ops list is fully characterized as the
concatenation of the two conditional single-op lists, and each op's
membership is an if-and-only-if: in particular a field whose stored value
already matches gets no op even when the other field is stale, and when
both match `check` succeeds with an empty ops list. -/
theorem patch_ops_iff (hash : List Nat → List Nat) (chk : List Nat → Nat)
    (file : List Nat) (ops : List PatchOp)
    (hok : check hash chk file = .ok ops) :
    ops =
      (if chk (readBytes file FLASH_CONFIG_OFFSET (FLASH_CRC_OFFSET - FLASH_CONFIG_OFFSET)) %
            4294967296 ≠ readU32 file FLASH_CRC_OFFSET then
          [PatchOp.mk FLASH_CRC_OFFSET (u32le (chk (readBytes file FLASH_CONFIG_OFFSET
            (FLASH_CRC_OFFSET - FLASH_CONFIG_OFFSET)) % 4294967296))]
        else []) ++
      (if chk (readBytes file CLOCK_CONFIG_OFFSET (CLOCK_CRC_OFFSET - CLOCK_CONFIG_OFFSET)) %
            4294967296 ≠ readU32 file CLOCK_CRC_OFFSET then
          [PatchOp.mk CLOCK_CRC_OFFSET (u32le (chk (readBytes file CLOCK_CONFIG_OFFSET
            (CLOCK_CRC_OFFSET - CLOCK_CONFIG_OFFSET)) % 4294967296))]
        else []) ∧
    (chk (readBytes file FLASH_CONFIG_OFFSET (FLASH_CRC_OFFSET - FLASH_CONFIG_OFFSET)) %
        4294967296 ≠ readU32 file FLASH_CRC_OFFSET ↔
      PatchOp.mk FLASH_CRC_OFFSET (u32le (chk (readBytes file FLASH_CONFIG_OFFSET
        (FLASH_CRC_OFFSET - FLASH_CONFIG_OFFSET)) % 4294967296)) ∈ ops) ∧
    (chk (readBytes file CLOCK_CONFIG_OFFSET (CLOCK_CRC_OFFSET - CLOCK_CONFIG_OFFSET)) %
        4294967296 ≠ readU32 file CLOCK_CRC_OFFSET ↔
      PatchOp.mk CLOCK_CRC_OFFSET (u32le (chk (readBytes file CLOCK_CONFIG_OFFSET
        (CLOCK_CRC_OFFSET - CLOCK_CONFIG_OFFSET)) % 4294967296)) ∈ ops) := by
  obtain ⟨-, -, -, -, -, -, hops⟩ := check_ok_elim hash chk file ops hok
  have hne : FLASH_CRC_OFFSET ≠ CLOCK_CRC_OFFSET := by decide
  subst hops
  refine ⟨rfl, ⟨fun hF => ?_, fun hmem => ?_⟩, ⟨fun hC => ?_, fun hmem => ?_⟩⟩
  · rw [if_pos hF]
    exact List.mem_append_left _ (List.mem_singleton.mpr rfl)
  · by_contra hF
    rw [if_neg (not_not_intro hF), List.nil_append] at hmem
    by_cases hC : chk (readBytes file CLOCK_CONFIG_OFFSET
        (CLOCK_CRC_OFFSET - CLOCK_CONFIG_OFFSET)) % 4294967296 ≠
        readU32 file CLOCK_CRC_OFFSET
    · rw [if_pos hC] at hmem
      exact absurd (congrArg PatchOp.offset (List.mem_singleton.mp hmem)) hne
    · rw [if_neg hC] at hmem
      exact absurd hmem (List.not_mem_nil _)
  · rw [if_pos hC]
    exact List.mem_append_right _ (List.mem_singleton.mpr rfl)
  · by_contra hC
    rw [if_neg (not_not_intro hC), List.append_nil] at hmem
    by_cases hF : chk (readBytes file FLASH_CONFIG_OFFSET
        (FLASH_CRC_OFFSET - FLASH_CONFIG_OFFSET)) % 4294967296 ≠
        readU32 file FLASH_CRC_OFFSET
    · rw [if_pos hF] at hmem
      exact absurd (congrArg PatchOp.offset (List.mem_singleton.mp hmem)) hne.symm
    · rw [if_neg hF] at hmem
      exact absurd hmem (List.not_mem_nil _)

/-- Claim C7, counterexample: on a concrete image on which `check`
succeeds and both stored redundancy fields already equal their recomputed
values, `check` returns an empty ops list — not at least one `PatchOp` per
sub-record as the claim states. -/
theorem patch_ops_unconditional_counterexample :
    check mHash mChk consistentFile = .ok [] := by rfl

/-- Applying a list of patch ops leaves every byte outside all of the ops'
target ranges unchanged. -/
theorem getD_process_outside (ops : List PatchOp) (file : List Nat) (i : Nat)
    (h : ∀ op ∈ ops, i < op.offset ∨ op.offset + op.bytes.length ≤ i) :
    (process file ops).getD i 0 = file.getD i 0 := by
  induction ops generalizing file with
  | nil => rfl
  | cons op ops ih =>
    show (process (writeAt file op.offset op.bytes) ops).getD i 0 = _
    rw [ih _ fun o ho => h o (List.mem_cons_of_mem _ ho),
      getD_writeAt_outside _ _ _ _ (h op (List.mem_cons_self _ _))]

/-- Every op `check` returns targets the redundancy-field zone of the
header: its range lies within the bytes from `FLASH_CRC_OFFSET` to
`CLOCK_CRC_OFFSET + 4`. -/
theorem check_ops_bound (hash : List Nat → List Nat) (chk : List Nat → Nat)
    (file : List Nat) (ops : List PatchOp)
    (hok : check hash chk file = .ok ops) :
    ∀ op ∈ ops, FLASH_CRC_OFFSET ≤ op.offset ∧
      op.offset + op.bytes.length ≤ CLOCK_CRC_OFFSET + 4 := by
  obtain ⟨-, -, -, -, -, -, hops⟩ := check_ok_elim hash chk file ops hok
  subst hops
  intro op hop
  rcases List.mem_append.mp hop with h | h
  · by_cases hF : chk (readBytes file FLASH_CONFIG_OFFSET
        (FLASH_CRC_OFFSET - FLASH_CONFIG_OFFSET)) % 4294967296 ≠
        readU32 file FLASH_CRC_OFFSET
    · rw [if_pos hF] at h
      rw [List.mem_singleton.mp h]
      refine ⟨Nat.le_refl _, ?_⟩
      show FLASH_CRC_OFFSET + (u32le (chk (readBytes file FLASH_CONFIG_OFFSET
        (FLASH_CRC_OFFSET - FLASH_CONFIG_OFFSET)) % 4294967296)).length ≤ CLOCK_CRC_OFFSET + 4
      rw [length_u32le]
      decide
    · rw [if_neg hF] at h
      exact absurd h (List.not_mem_nil _)
  · by_cases hC : chk (readBytes file CLOCK_CONFIG_OFFSET
        (CLOCK_CRC_OFFSET - CLOCK_CONFIG_OFFSET)) % 4294967296 ≠
        readU32 file CLOCK_CRC_OFFSET
    · rw [if_pos hC] at h
      rw [List.mem_singleton.mp h]
      constructor
      · show FLASH_CRC_OFFSET ≤ CLOCK_CRC_OFFSET
        decide
      · show CLOCK_CRC_OFFSET + (u32le (chk (readBytes file CLOCK_CONFIG_OFFSET
          (CLOCK_CRC_OFFSET - CLOCK_CONFIG_OFFSET)) % 4294967296)).length ≤ CLOCK_CRC_OFFSET + 4
        rw [length_u32le]
    · rw [if_neg hC] at h
      exact absurd h (List.not_mem_nil _)

/-- Claim C5, amended: for every image on which `check` succeeds with ops
list `ops`, `process` changes the image only at the byte offsets named by
the ops: every byte outside all of the ops' target ranges is unchanged,
and — whenever the declared payload region lies beyond the header (which
the validator does not itself enforce) — the entire payload region is
byte-for-byte identical to the input. -/
theorem process_frame (hash : List Nat → List Nat) (chk : List Nat → Nat)
    (file : List Nat) (ops : List PatchOp)
    (hok : check hash chk file = .ok ops) :
    (∀ i : Nat, (∀ op ∈ ops, i < op.offset ∨ op.offset + op.bytes.length ≤ i) →
      (process file ops).getD i 0 = file.getD i 0) ∧
    (HEADER_SIZE ≤ readU32 file IMAGE_OFFSET_OFFSET →
      ∀ i : Nat, readU32 file IMAGE_OFFSET_OFFSET ≤ i →
        (process file ops).getD i 0 = file.getD i 0) := by
  refine ⟨fun i hi => getD_process_outside ops file i hi, fun hoff i hi => ?_⟩
  refine getD_process_outside ops file i fun op hop => Or.inr ?_
  have hb := check_ops_bound hash chk file ops hok op hop
  have e1 : CLOCK_CRC_OFFSET + 4 = 120 := rfl
  have e2 : HEADER_SIZE = 256 := rfl
  omega

/-- Claim C5, counterexample: `overlapFile` is a valid image (its `check`
succeeds), its declared payload region is the byte range from 100 of
length 4, yet `process` changes byte 100 of that payload region, because
the image declares its payload on top of the flash-config redundancy field
and that field is stale.  The claim's assertion that the entire payload
region always stays identical is therefore false. -/
theorem process_payload_counterexample :
    check mHash mChk overlapFile = .ok [PatchOp.mk FLASH_CRC_OFFSET (u32le 278)] ∧
    readU32 overlapFile IMAGE_OFFSET_OFFSET = 100 ∧
    readU32 overlapFile IMAGE_LENGTH_OFFSET = 4 ∧
    (process overlapFile [PatchOp.mk FLASH_CRC_OFFSET (u32le 278)]).getD 100 0 ≠
      overlapFile.getD 100 0 :=
  ⟨by rfl, by rfl, by rfl, by decide⟩

/-- Claim C5, witness: on the concrete stale-flash-field image, byte 0
(outside the single returned op's range) and byte 300 (inside the payload
region, which starts at offset 256) are unchanged by `process`. -/
theorem process_frame_witness :
    (process c8file [PatchOp.mk FLASH_CRC_OFFSET (u32le 278)]).getD 0 0 =
      c8file.getD 0 0 ∧
    (process c8file [PatchOp.mk FLASH_CRC_OFFSET (u32le 278)]).getD 300 0 =
      c8file.getD 300 0 :=
  ⟨(process_frame mHash mChk c8file [PatchOp.mk FLASH_CRC_OFFSET (u32le 278)]
      (by rfl)).1 0 (by decide),
    (process_frame mHash mChk c8file [PatchOp.mk FLASH_CRC_OFFSET (u32le 278)]
      (by rfl)).2 (by decide) 300 (by decide)⟩

/-- The little-endian encoding of a decoded 32-bit field reproduces the
four bytes it was decoded from. -/
theorem u32le_getD_readU32 (file : List Nat) (off : Nat) :
    (u32le (readU32 file off)).getD 0 0 = byteAt file off ∧
    (u32le (readU32 file off)).getD 1 0 = byteAt file (off + 1) ∧
    (u32le (readU32 file off)).getD 2 0 = byteAt file (off + 2) ∧
    (u32le (readU32 file off)).getD 3 0 = byteAt file (off + 3) := by
  have hb0 := byteAt_lt file off
  have hb1 := byteAt_lt file (off + 1)
  have hb2 := byteAt_lt file (off + 2)
  have hb3 := byteAt_lt file (off + 3)
  unfold readU32 u32le
  refine ⟨?_, ?_, ?_, ?_⟩ <;>
    simp only [List.getD_cons_zero, List.getD_cons_succ] <;> omega

/-- Writing back the currently stored 32-bit value changes no byte read. -/
theorem byteAt_writeAt_readback (file : List Nat) (off : Nat)
    (h4 : off + 4 ≤ file.length) (i : Nat) :
    byteAt (writeAt file off (u32le (readU32 file off))) i = byteAt file i := by
  by_cases hout : i < off ∨ off + (u32le (readU32 file off)).length ≤ i
  · exact byteAt_writeAt_outside _ _ _ _ hout
  · rw [length_u32le] at hout
    push_neg at hout
    obtain ⟨h1, h2⟩ := hout
    obtain ⟨k, hk4, rfl⟩ : ∃ k, k < 4 ∧ i = off + k := ⟨i - off, by omega, by omega⟩
    have hin : byteAt (writeAt file off (u32le (readU32 file off))) (off + k) =
        (u32le (readU32 file off)).getD k 0 % 256 := by
      unfold byteAt
      rw [getD_writeAt_inside _ _ _ _ (by rw [length_u32le]; omega) (by omega)]
    rw [hin]
    obtain ⟨g0, g1, g2, g3⟩ := u32le_getD_readU32 file off
    interval_cases k
    · rw [g0, Nat.add_zero, Nat.mod_eq_of_lt (byteAt_lt file off)]
    · rw [g1, Nat.mod_eq_of_lt (byteAt_lt file (off + 1))]
    · rw [g2, Nat.mod_eq_of_lt (byteAt_lt file (off + 2))]
    · rw [g3, Nat.mod_eq_of_lt (byteAt_lt file (off + 3))]

/-- Writing the same bytes at the same offset into two images that agree
on every byte read (and have the same length) gives images that agree on
every byte read. -/
theorem byteAt_writeAt_congr (f1 f2 : List Nat) (hlen : f1.length = f2.length)
    (hb : ∀ j, byteAt f1 j = byteAt f2 j) (off : Nat) (bs : List Nat) (i : Nat) :
    byteAt (writeAt f1 off bs) i = byteAt (writeAt f2 off bs) i := by
  by_cases hout : i < off ∨ off + bs.length ≤ i
  · rw [byteAt_writeAt_outside _ _ _ _ hout, byteAt_writeAt_outside _ _ _ _ hout]
    exact hb i
  · push_neg at hout
    obtain ⟨h1, h2⟩ := hout
    obtain ⟨k, hk, rfl⟩ : ∃ k, k < bs.length ∧ i = off + k := ⟨i - off, by omega, by omega⟩
    by_cases hin : off + k < f1.length
    · unfold byteAt
      rw [getD_writeAt_inside _ _ _ _ hk hin, getD_writeAt_inside _ _ _ _ hk (hlen ▸ hin)]
    · unfold byteAt
      rw [List.getD_eq_default _ _ (by rw [length_writeAt]; omega),
        List.getD_eq_default _ _ (by rw [length_writeAt]; omega)]

/-- Applying patch ops never changes the length of the image. -/
theorem length_process (ops : List PatchOp) (file : List Nat) :
    (process file ops).length = file.length := by
  induction ops generalizing file with
  | nil => rfl
  | cons op ops ih =>
    show (process (writeAt file op.offset op.bytes) ops).length = _
    rw [ih, length_writeAt]

/-- `check` depends on the image only through its length and its byte
reads: two images agreeing on both are checked identically. -/
theorem check_congr (hash : List Nat → List Nat) (chk : List Nat → Nat)
    (g1 g2 : List Nat) (hlen : g1.length = g2.length)
    (hb : ∀ i, byteAt g1 i = byteAt g2 i) :
    check hash chk g1 = check hash chk g2 := by
  have hu : ∀ off, readU32 g1 off = readU32 g2 off := fun off => by
    unfold readU32
    rw [hb off, hb (off + 1), hb (off + 2), hb (off + 3)]
  have hbs : ∀ off len, readBytes g1 off len = readBytes g2 off len := fun off len => by
    unfold readBytes
    exact List.map_congr_left fun k _ => hb (off + k)
  unfold check
  simp only [hlen, hu, hbs]

/-- An image whose magics, range, digest and both redundancy fields all
read back consistently passes `check` with an empty ops list.  The reads
of the candidate image `g` are related to those of a reference image
`file` that established the range and digest facts. -/
theorem check_ok_of_reads (hash : List Nat → List Nat) (chk : List Nat → Nat)
    (g file : List Nat)
    (hlen2 : g.length = file.length)
    (hlen : HEADER_SIZE ≤ file.length)
    (hm : readU32 g MAGIC_OFFSET = MAGIC)
    (hf : readU32 g FLASH_CONFIG_OFFSET = FLASH_MAGIC)
    (hc : readU32 g CLOCK_CONFIG_OFFSET = CLOCK_MAGIC)
    (hio : readU32 g IMAGE_OFFSET_OFFSET = readU32 file IMAGE_OFFSET_OFFSET)
    (hil : readU32 g IMAGE_LENGTH_OFFSET = readU32 file IMAGE_LENGTH_OFFSET)
    (hr : readU32 file IMAGE_OFFSET_OFFSET + readU32 file IMAGE_LENGTH_OFFSET ≤ file.length)
    (hpay : readBytes g (readU32 g IMAGE_OFFSET_OFFSET) (readU32 g IMAGE_LENGTH_OFFSET) =
      readBytes file (readU32 file IMAGE_OFFSET_OFFSET) (readU32 file IMAGE_LENGTH_OFFSET))
    (hdig : readBytes g DIGEST_OFFSET 32 = readBytes file DIGEST_OFFSET 32)
    (hd : hash (readBytes file (readU32 file IMAGE_OFFSET_OFFSET)
      (readU32 file IMAGE_LENGTH_OFFSET)) = readBytes file DIGEST_OFFSET 32)
    (hcrcF : readU32 g FLASH_CRC_OFFSET = chk (readBytes g FLASH_CONFIG_OFFSET
      (FLASH_CRC_OFFSET - FLASH_CONFIG_OFFSET)) % 4294967296)
    (hcrcC : readU32 g CLOCK_CRC_OFFSET = chk (readBytes g CLOCK_CONFIG_OFFSET
      (CLOCK_CRC_OFFSET - CLOCK_CONFIG_OFFSET)) % 4294967296) :
    check hash chk g = .ok [] := by
  unfold check
  rw [if_neg (by rw [hlen2]; omega), if_neg (not_not_intro hm), if_neg (not_not_intro hf),
    if_neg (not_not_intro hc), if_neg (by rw [hlen2, hio, hil]; omega),
    if_neg (by rw [hpay, hdig]; exact not_not_intro hd),
    if_neg (not_not_intro hcrcF.symm), if_neg (not_not_intro hcrcC.symm)]
  rfl

/-- Patching both redundancy fields of a structurally valid image with
their recomputed values yields an image that `check` accepts with no
further ops, provided the payload region lies beyond the header. -/
theorem check_double_patch (hash : List Nat → List Nat) (chk : List Nat → Nat)
    (file : List Nat)
    (hlen : HEADER_SIZE ≤ file.length)
    (hm : readU32 file MAGIC_OFFSET = MAGIC)
    (hf : readU32 file FLASH_CONFIG_OFFSET = FLASH_MAGIC)
    (hc : readU32 file CLOCK_CONFIG_OFFSET = CLOCK_MAGIC)
    (hr : readU32 file IMAGE_OFFSET_OFFSET + readU32 file IMAGE_LENGTH_OFFSET ≤ file.length)
    (hd : hash (readBytes file (readU32 file IMAGE_OFFSET_OFFSET)
      (readU32 file IMAGE_LENGTH_OFFSET)) = readBytes file DIGEST_OFFSET 32)
    (hoff : HEADER_SIZE ≤ readU32 file IMAGE_OFFSET_OFFSET) :
    check hash chk
      (writeAt (writeAt file FLASH_CRC_OFFSET
          (u32le (chk (readBytes file FLASH_CONFIG_OFFSET
            (FLASH_CRC_OFFSET - FLASH_CONFIG_OFFSET)) % 4294967296)))
        CLOCK_CRC_OFFSET
        (u32le (chk (readBytes file CLOCK_CONFIG_OFFSET
          (CLOCK_CRC_OFFSET - CLOCK_CONFIG_OFFSET)) % 4294967296))) = .ok [] := by
  have eH : HEADER_SIZE = 256 := rfl
  have e1 : FLASH_CRC_OFFSET = 100 := rfl
  have e2 : CLOCK_CRC_OFFSET = 116 := rfl
  set F := chk (readBytes file FLASH_CONFIG_OFFSET
    (FLASH_CRC_OFFSET - FLASH_CONFIG_OFFSET)) % 4294967296 with hFdef
  set C := chk (readBytes file CLOCK_CONFIG_OFFSET
    (CLOCK_CRC_OFFSET - CLOCK_CONFIG_OFFSET)) % 4294967296 with hCdef
  set g2 := writeAt file FLASH_CRC_OFFSET (u32le F) with hg2def
  set g := writeAt g2 CLOCK_CRC_OFFSET (u32le C) with hgdef
  have hg2len : g2.length = file.length := length_writeAt _ _ _
  have hglen : g.length = file.length := by rw [hgdef, length_writeAt, hg2len]
  have hOL : (u32le F).length = 4 := length_u32le F
  have hCL : (u32le C).length = 4 := length_u32le C
  have hread : ∀ off, off + 4 ≤ FLASH_CRC_OFFSET ∨ FLASH_CRC_OFFSET + 4 ≤ off →
      off + 4 ≤ CLOCK_CRC_OFFSET ∨ CLOCK_CRC_OFFSET + 4 ≤ off →
      readU32 g off = readU32 file off := by
    intro off hF' hC'
    rw [hgdef, readU32_writeAt_outside _ _ _ _ (by rw [hCL]; omega),
      hg2def, readU32_writeAt_outside _ _ _ _ (by rw [hOL]; omega)]
  have hbytes : ∀ off len, off + len ≤ FLASH_CRC_OFFSET ∨ FLASH_CRC_OFFSET + 4 ≤ off →
      off + len ≤ CLOCK_CRC_OFFSET ∨ CLOCK_CRC_OFFSET + 4 ≤ off →
      readBytes g off len = readBytes file off len := by
    intro off len hF' hC'
    rw [hgdef, readBytes_writeAt_outside _ _ _ _ _ (by rw [hCL]; omega),
      hg2def, readBytes_writeAt_outside _ _ _ _ _ (by rw [hOL]; omega)]
  have hio : readU32 g IMAGE_OFFSET_OFFSET = readU32 file IMAGE_OFFSET_OFFSET :=
    hread _ (by decide) (by decide)
  have hil : readU32 g IMAGE_LENGTH_OFFSET = readU32 file IMAGE_LENGTH_OFFSET :=
    hread _ (by decide) (by decide)
  have hbodyF : readBytes g FLASH_CONFIG_OFFSET (FLASH_CRC_OFFSET - FLASH_CONFIG_OFFSET) =
      readBytes file FLASH_CONFIG_OFFSET (FLASH_CRC_OFFSET - FLASH_CONFIG_OFFSET) :=
    hbytes _ _ (by decide) (by decide)
  have hbodyC : readBytes g CLOCK_CONFIG_OFFSET (CLOCK_CRC_OFFSET - CLOCK_CONFIG_OFFSET) =
      readBytes file CLOCK_CONFIG_OFFSET (CLOCK_CRC_OFFSET - CLOCK_CONFIG_OFFSET) :=
    hbytes _ _ (by decide) (by decide)
  have hcrcF : readU32 g FLASH_CRC_OFFSET = F := by
    rw [hgdef, readU32_writeAt_outside _ _ _ _ (Or.inl (by decide)), hg2def,
      readU32_writeAt_u32le file FLASH_CRC_OFFSET F (by omega)]
    omega
  have hcrcC : readU32 g CLOCK_CRC_OFFSET = C := by
    rw [hgdef, readU32_writeAt_u32le g2 CLOCK_CRC_OFFSET C (by rw [hg2len]; omega)]
    omega
  refine check_ok_of_reads hash chk g file hglen hlen ?_ ?_ ?_ hio hil hr ?_ ?_ hd ?_ ?_
  · rw [hread MAGIC_OFFSET (by decide) (by decide)]
    exact hm
  · rw [hread FLASH_CONFIG_OFFSET (by decide) (by decide)]
    exact hf
  · rw [hread CLOCK_CONFIG_OFFSET (by decide) (by decide)]
    exact hc
  · rw [hio, hil]
    exact hbytes _ _ (by omega) (by omega)
  · exact hbytes DIGEST_OFFSET 32 (by decide) (by decide)
  · rw [hcrcF, hbodyF]
  · rw [hcrcC, hbodyC]

/-- Claim C6, amended: for every image on which `check` succeeds with ops
`ops` and whose declared payload region lies beyond the header
(`image_offset` at least `HEADER_SIZE`, which the validator does not
itself enforce), re-running `check` on the patched copy succeeds and now
returns an empty ops list — every redundancy field already matches its
recomputed value — so applying `process` a second time leaves the patched
file unchanged. -/
theorem check_process_roundtrip (hash : List Nat → List Nat) (chk : List Nat → Nat)
    (file : List Nat) (ops : List PatchOp)
    (hok : check hash chk file = .ok ops)
    (hoff : HEADER_SIZE ≤ readU32 file IMAGE_OFFSET_OFFSET) :
    check hash chk (process file ops) = .ok [] ∧
    process (process file ops) [] = process file ops := by
  obtain ⟨hlen, hm, hf, hc, hr, hd, hops⟩ := check_ok_elim hash chk file ops hok
  have eH : HEADER_SIZE = 256 := rfl
  have e1 : FLASH_CRC_OFFSET = 100 := rfl
  have e2 : CLOCK_CRC_OFFSET = 116 := rfl
  refine ⟨?_, rfl⟩
  set F := chk (readBytes file FLASH_CONFIG_OFFSET
    (FLASH_CRC_OFFSET - FLASH_CONFIG_OFFSET)) % 4294967296 with hFdef
  set C := chk (readBytes file CLOCK_CONFIG_OFFSET
    (CLOCK_CRC_OFFSET - CLOCK_CONFIG_OFFSET)) % 4294967296 with hCdef
  have hequiv : ∀ i, byteAt (process file ops) i =
      byteAt (writeAt (writeAt file FLASH_CRC_OFFSET (u32le F))
        CLOCK_CRC_OFFSET (u32le C)) i := by
    rw [hops]
    by_cases hF : F ≠ readU32 file FLASH_CRC_OFFSET
    · by_cases hC : C ≠ readU32 file CLOCK_CRC_OFFSET
      · rw [if_pos hF, if_pos hC]
        intro i
        rfl
      · rw [if_pos hF, if_neg hC]
        push_neg at hC
        intro i
        show byteAt (writeAt file FLASH_CRC_OFFSET (u32le F)) i = _
        have hru : readU32 (writeAt file FLASH_CRC_OFFSET (u32le F)) CLOCK_CRC_OFFSET =
            readU32 file CLOCK_CRC_OFFSET :=
          readU32_writeAt_outside _ _ _ _ (Or.inr (by rw [length_u32le]; decide))
        rw [hC, ← hru]
        exact (byteAt_writeAt_readback _ _ (by rw [length_writeAt]; omega) i).symm
    · by_cases hC : C ≠ readU32 file CLOCK_CRC_OFFSET
      · rw [if_neg hF, if_pos hC]
        push_neg at hF
        intro i
        show byteAt (writeAt file CLOCK_CRC_OFFSET (u32le C)) i = _
        refine byteAt_writeAt_congr file _ (length_writeAt _ _ _).symm
          (fun j => ?_) CLOCK_CRC_OFFSET (u32le C) i
        rw [hF]
        exact (byteAt_writeAt_readback file FLASH_CRC_OFFSET (by omega) j).symm
      · rw [if_neg hF, if_neg hC]
        push_neg at hF hC
        intro i
        show byteAt file i = _
        have hstep : byteAt file i = byteAt (writeAt file FLASH_CRC_OFFSET (u32le F)) i := by
          rw [hF]
          exact (byteAt_writeAt_readback file FLASH_CRC_OFFSET (by omega) i).symm
        rw [hstep]
        have hru : readU32 (writeAt file FLASH_CRC_OFFSET (u32le F)) CLOCK_CRC_OFFSET =
            readU32 file CLOCK_CRC_OFFSET :=
          readU32_writeAt_outside _ _ _ _ (Or.inr (by rw [length_u32le]; decide))
        rw [hC, ← hru]
        exact (byteAt_writeAt_readback _ _ (by rw [length_writeAt]; omega) i).symm
  have hceq : check hash chk (process file ops) =
      check hash chk (writeAt (writeAt file FLASH_CRC_OFFSET (u32le F))
        CLOCK_CRC_OFFSET (u32le C)) :=
    check_congr hash chk _ _
      (by rw [length_process, length_writeAt, length_writeAt]) hequiv
  rw [hceq]
  exact check_double_patch hash chk file hlen hm hf hc hr hd hoff

/-- Claim C6, counterexample: `overlapFile` is a valid image (its `check`
succeeds), but because its declared payload region sits on top of the
stale flash-config redundancy field, re-running `check` on the patched
copy does not succeed: it fails with a payload-digest mismatch.  The
round-trip claim is therefore false without a payload-beyond-header
assumption. -/
theorem roundtrip_counterexample :
    check mHash mChk overlapFile = .ok [PatchOp.mk FLASH_CRC_OFFSET (u32le 278)] ∧
    check mHash mChk (process overlapFile [PatchOp.mk FLASH_CRC_OFFSET (u32le 278)]) =
      .error (.sha256Checksum ((List.range 32).map fun i => (23 + i) % 256)) :=
  ⟨by rfl, by rfl⟩

/-- Claim C6, witness: on the concrete stale-flash-field image (payload at
offset 256, beyond the header), `check` after `process` succeeds with an
empty ops list and a second `process` is the identity. -/
theorem check_process_roundtrip_witness :
    check mHash mChk (process c8file [PatchOp.mk FLASH_CRC_OFFSET (u32le 278)]) = .ok [] ∧
    process (process c8file [PatchOp.mk FLASH_CRC_OFFSET (u32le 278)]) [] =
      process c8file [PatchOp.mk FLASH_CRC_OFFSET (u32le 278)] :=
  check_process_roundtrip mHash mChk c8file [PatchOp.mk FLASH_CRC_OFFSET (u32le 278)]
    (by rfl) (by decide)

/-- Claim C8: the concrete scenario of spec section 8.  `c8file` is 320
bytes long with correct magics, declares its payload at offset 256 with
length 64, stores a digest equal to the hash of bytes [256, 320), and its
flash-config redundancy field reads 0 while the recomputed value differs
from 0.  `check` succeeds and returns exactly one `PatchOp`, targeting the
flash-config redundancy field's offset and carrying the recomputed value,
and after `process` the payload bytes [256, 320) are unchanged. -/
theorem c8_scenario :
    c8file.length = 320 ∧
    readU32 c8file IMAGE_OFFSET_OFFSET = 256 ∧
    readU32 c8file IMAGE_LENGTH_OFFSET = 64 ∧
    mHash (readBytes c8file 256 64) = readBytes c8file DIGEST_OFFSET 32 ∧
    readU32 c8file FLASH_CRC_OFFSET = 0 ∧
    mChk (readBytes c8file FLASH_CONFIG_OFFSET
      (FLASH_CRC_OFFSET - FLASH_CONFIG_OFFSET)) % 4294967296 ≠ 0 ∧
    check mHash mChk c8file = .ok [PatchOp.mk FLASH_CRC_OFFSET
      (u32le (mChk (readBytes c8file FLASH_CONFIG_OFFSET
        (FLASH_CRC_OFFSET - FLASH_CONFIG_OFFSET)) % 4294967296))] ∧
    (process c8file [PatchOp.mk FLASH_CRC_OFFSET
      (u32le (mChk (readBytes c8file FLASH_CONFIG_OFFSET
        (FLASH_CRC_OFFSET - FLASH_CONFIG_OFFSET)) % 4294967296))]).drop 256 =
      c8file.drop 256 :=
  ⟨by rfl, by rfl, by rfl, by rfl, by rfl, by decide, by rfl, by rfl⟩

/-- Claim C7, witness: on the concrete stale-flash-field image the amended
theorem yields the flash-config patch op with the recomputed value. -/
theorem patch_ops_iff_witness :
    PatchOp.mk FLASH_CRC_OFFSET (u32le (mChk (readBytes c8file FLASH_CONFIG_OFFSET
      (FLASH_CRC_OFFSET - FLASH_CONFIG_OFFSET)) % 4294967296)) ∈
      [PatchOp.mk FLASH_CRC_OFFSET (u32le 278)] :=
  (patch_ops_iff mHash mChk c8file [PatchOp.mk FLASH_CRC_OFFSET (u32le 278)]
    (by rfl)).2.1.mp (by decide)

end Blri

namespace Uart

/-- Word length, from `src/uart.rs` (`WordLength`). -/
inductive WordLength where
  | Five
  | Six
  | Seven
  | Eight
deriving DecidableEq

/-- Configuration structure for the transmit feature, from `src/uart.rs`
(`TransmitConfig`), a transparent wrapper around a `u32` register value,
embedded as a natural number (the `u32` range is below 2 to the 32nd). -/
structure TransmitConfig where
  val : Nat
deriving DecidableEq

namespace TransmitConfig

/-- The 3-bit word-length field mask, `0b111 << 8` (`src/uart.rs`). -/
def WORD_LENGTH : Nat := 0b111 <<< 8

/-- The derived `Default` of `TransmitConfig` in `src/uart.rs`: raw
register value 0. -/
def default : TransmitConfig := ⟨0⟩

/-- `TransmitConfig::set_word_length` (`src/uart.rs`): stores 4, 5, 6 or 7
into the word-length field, `self.0 & !Self::WORD_LENGTH | val << 8`,
where `!` is the `u32` complement (exclusive-or against `0xffffffff`). -/
def set_word_length (c : TransmitConfig) (val : WordLength) : TransmitConfig :=
  ⟨c.val &&& (0xffffffff ^^^ WORD_LENGTH) |||
    (match val with
      | WordLength.Five => 4
      | WordLength.Six => 5
      | WordLength.Seven => 6
      | WordLength.Eight => 7) <<< 8⟩

/-- `TransmitConfig::word_length` (`src/uart.rs`): decodes the word-length
field `(self.0 & Self::WORD_LENGTH) >> 8`; the `unreachable` arm taken for
field values 0 to 3 diverges (a panic) and is embedded as `none`. -/
def word_length (c : TransmitConfig) : Option WordLength :=
  match (c.val &&& WORD_LENGTH) >>> 8 with
  | 4 => some WordLength.Five
  | 5 => some WordLength.Six
  | 6 => some WordLength.Seven
  | 7 => some WordLength.Eight
  | _ => none

end TransmitConfig

end Uart

namespace Uart

namespace TransmitConfig

/-- Unfolding equation for `word_length`. -/
theorem word_length_eq (c : TransmitConfig) :
    word_length c =
      match (c.val &&& WORD_LENGTH) >>> 8 with
      | 4 => some WordLength.Five
      | 5 => some WordLength.Six
      | 6 => some WordLength.Seven
      | 7 => some WordLength.Eight
      | _ => none := rfl

/-- Unfolding equation for the raw value after `set_word_length`. -/
theorem set_word_length_val (c : TransmitConfig) (w : WordLength) :
    (c.set_word_length w).val =
      c.val &&& (0xffffffff ^^^ WORD_LENGTH) |||
        (match w with
          | WordLength.Five => 4
          | WordLength.Six => 5
          | WordLength.Seven => 6
          | WordLength.Eight => 7) <<< 8 := rfl

/-- A value below 8 has no set bit at position 3 or above. -/
theorem testBit_small (v j : Nat) (hv : v < 8) (hj : 3 ≤ j) : v.testBit j = false :=
  Nat.testBit_eq_false_of_lt
    (lt_of_lt_of_le hv (le_trans (show (8 : Nat) ≤ 2 ^ 3 by norm_num)
      (Nat.pow_le_pow_right (by norm_num) hj)))

/-- A `u32` value has no set bit at position 32 or above. -/
theorem testBit_u32 (x j : Nat) (hx : x < 4294967296) (hj : 32 ≤ j) : x.testBit j = false :=
  Nat.testBit_eq_false_of_lt
    (lt_of_lt_of_le hx (le_trans (show (4294967296 : Nat) ≤ 2 ^ 32 by norm_num)
      (Nat.pow_le_pow_right (by norm_num) hj)))

/-- After `set_word_length` writes value `v` (below 8) into the field,
extracting the field returns exactly `v`. -/
theorem field_after_set (x v : Nat) (hv : v < 8) :
    ((x &&& (0xffffffff ^^^ WORD_LENGTH) ||| v <<< 8) &&& WORD_LENGTH) >>> 8 = v := by
  have hm : (0xffffffff : Nat) = 2 ^ 32 - 1 := by norm_num
  have hw : WORD_LENGTH = (2 ^ 3 - 1) <<< 8 := by norm_num [WORD_LENGTH]
  apply Nat.eq_of_testBit_eq
  intro j
  rw [Nat.testBit_shiftRight, hm, hw]
  simp only [Nat.testBit_land, Nat.testBit_lor, Nat.testBit_xor, Nat.testBit_shiftLeft,
    Nat.testBit_two_pow_sub_one]
  by_cases hj : j < 3
  · have h1 : 8 + j ≥ 8 := by omega
    have h2 : 8 + j - 8 = j := by omega
    have h3 : 8 + j < 32 := by omega
    simp [h1, h2, h3, hj]
  · have h2 : 8 + j - 8 = j := by omega
    have hvj : v.testBit j = false := testBit_small v j hv (by omega)
    simp [h2, hj, hvj]

/-- `set_word_length` leaves every bit outside positions 8 to 10 of the
32-bit register value unchanged. -/
theorem testBit_after_set_outside (x v i : Nat) (hv : v < 8) (hx : x < 4294967296)
    (hi : i < 8 ∨ 11 ≤ i) :
    (x &&& (0xffffffff ^^^ WORD_LENGTH) ||| v <<< 8).testBit i = x.testBit i := by
  have hm : (0xffffffff : Nat) = 2 ^ 32 - 1 := by norm_num
  have hw : WORD_LENGTH = (2 ^ 3 - 1) <<< 8 := by norm_num [WORD_LENGTH]
  rw [hm, hw]
  simp only [Nat.testBit_land, Nat.testBit_lor, Nat.testBit_xor, Nat.testBit_shiftLeft,
    Nat.testBit_two_pow_sub_one]
  by_cases h32 : i < 32
  · rcases hi with h | h
    · have h8 : ¬ (i ≥ 8) := by omega
      simp [h8, h32]
    · have h8 : i ≥ 8 := by omega
      have h3 : ¬ (i - 8 < 3) := by omega
      simp [h8, h32, h3, testBit_small v (i - 8) hv (by omega)]
  · have h8 : i ≥ 8 := by omega
    have h3 : ¬ (i - 8 < 3) := by omega
    simp [h8, h32, h3, testBit_small v (i - 8) hv (by omega), testBit_u32 x i hx (by omega)]

/-- Claim C9: for every `u32`-valued `TransmitConfig` `c` and every word
length `w`, reading `word_length` right after `set_word_length c w`
returns `w` (the embedded total result, no panic), and `set_word_length`
changes no bits of `c` outside the 3-bit word-length field at bit
positions 8 to 10. -/
theorem set_word_length_roundtrip (c : TransmitConfig) (w : WordLength)
    (h : c.val < 4294967296) :
    (c.set_word_length w).word_length = some w ∧
    ∀ i : Nat, i ≠ 8 → i ≠ 9 → i ≠ 10 →
      (c.set_word_length w).val.testBit i = c.val.testBit i := by
  constructor
  · rw [word_length_eq, set_word_length_val]
    cases w
    · rw [field_after_set c.val 4 (by norm_num)]
    · rw [field_after_set c.val 5 (by norm_num)]
    · rw [field_after_set c.val 6 (by norm_num)]
    · rw [field_after_set c.val 7 (by norm_num)]
  · intro i h8 h9 h10
    rw [set_word_length_val]
    cases w
    · exact testBit_after_set_outside c.val 4 i (by norm_num) h (by omega)
    · exact testBit_after_set_outside c.val 5 i (by norm_num) h (by omega)
    · exact testBit_after_set_outside c.val 6 i (by norm_num) h (by omega)
    · exact testBit_after_set_outside c.val 7 i (by norm_num) h (by omega)

/-- Claim C9, witness: a concrete register value and word length. -/
theorem set_word_length_roundtrip_witness :
    (0x12345678 : Nat) < 4294967296 ∧
    (set_word_length ⟨0x12345678⟩ WordLength.Eight).word_length = some WordLength.Eight :=
  ⟨by norm_num,
    (set_word_length_roundtrip ⟨0x12345678⟩ WordLength.Eight (by norm_num)).1⟩

/-- The word-length field of any register value is a 3-bit value. -/
theorem word_length_field_lt (c : TransmitConfig) :
    (c.val &&& WORD_LENGTH) >>> 8 < 8 := by
  have h1 : c.val &&& WORD_LENGTH ≤ WORD_LENGTH := Nat.and_le_right
  have h2 : WORD_LENGTH = 1792 := rfl
  rw [Nat.shiftRight_eq_div_pow, show (2 : Nat) ^ 8 = 256 by norm_num]
  omega

/-- Claim C10: `word_length` is partial.  For every `TransmitConfig` whose
3-bit word-length field (bits 8 to 10) holds a value in 0 to 3, the match
falls through to the `unreachable` arm and the embedded function returns
`none` (the code panics); it returns normally exactly when the field value
is 4 to 7.  In particular the derived default configuration (raw value 0,
field value 0) hits the `unreachable` arm. -/
theorem word_length_none_iff (c : TransmitConfig) :
    ((c.val &&& WORD_LENGTH) >>> 8 < 4 → c.word_length = none) ∧
    (4 ≤ (c.val &&& WORD_LENGTH) >>> 8 → ∃ w, c.word_length = some w) ∧
    TransmitConfig.default.word_length = none := by
  have hlt := word_length_field_lt c
  refine ⟨fun h => ?_, fun h => ?_, rfl⟩
  · rw [word_length_eq]
    generalize hg : (c.val &&& WORD_LENGTH) >>> 8 = t at h ⊢
    interval_cases t <;> rfl
  · rw [word_length_eq]
    generalize hg : (c.val &&& WORD_LENGTH) >>> 8 = t at h hlt ⊢
    interval_cases t
    · exact ⟨WordLength.Five, rfl⟩
    · exact ⟨WordLength.Six, rfl⟩
    · exact ⟨WordLength.Seven, rfl⟩
    · exact ⟨WordLength.Eight, rfl⟩

/-- Claim C10, witness: the default configuration (raw value 0, field
value 0) reaches the `unreachable` arm: the embedded `word_length` returns
`none`. -/
theorem word_length_none_iff_witness :
    (0 &&& WORD_LENGTH) >>> 8 < 4 ∧ word_length ⟨0⟩ = none :=
  ⟨by decide, (word_length_none_iff ⟨0⟩).1 (by decide)⟩

end TransmitConfig

end Uart
